import Mathlib

/-!
# Verification of the PredictLink resolution engine

Shallow embedding of the resolution engine of the `predictlink-evm`
repository: the `StateMachineService` transition table and lookup, the
`ResolutionService` orchestrator (event processing, dispute handling,
finalization, settlement, cache cleanup, liveness-queue management) and
the `IndexerService` block-range indexer.  External collaborators (HTTP
peers, the chain adapter's transaction outcomes, the clock) are supplied
by an explicit environment record; each operation returns its result, the
updated world and the list of side effects it issued, so that invariants
about issued transactions and queue contents can be stated directly.
-/

namespace PredictLink

/-- The `ResolutionState` enum of `resolution.service.ts`. -/
inductive ResolutionState where
  | created
  | detecting
  | evidence_gathering
  | proposing
  | liveness
  | monitoring
  | disputed
  | arbitration
  | resolved
  | settled
deriving DecidableEq, Repr

/-- The `ResolutionContext` interface of `resolution.service.ts`:
`eventId`, optional `proposalId`, `currentState`, `metadata` (opaque
key/value pairs) and `timestamp`. -/
structure ResolutionContext where
  eventId : String
  proposalId : Option String := none
  currentState : ResolutionState
  metadata : List (String × String) := []
  timestamp : Int := 0
deriving DecidableEq, Repr

/-- One row of `StateMachineService.transitions` (`state-machine.service.ts`):
a list of admissible source states, the target state, and optional
`condition` / `action` hooks.  An action may fail (the TS action throws),
which is modelled by returning `none`. -/
structure StateTransition where
  from_ : List ResolutionState
  to_ : ResolutionState
  condition : Option (ResolutionContext → Bool) := none
  action : Option (ResolutionContext → Option ResolutionContext) := none

/-- The `transitions` map literal of `StateMachineService`, as a total
function (a missing key yields `[]`, mirroring `this.transitions.get(...) ||
[]`).  No entry of the source map carries a `condition` or an `action`. -/
def transitions : ResolutionState → List StateTransition
  | .created =>
      [{ from_ := [.created], to_ := .detecting },
       { from_ := [.created], to_ := .evidence_gathering }]
  | .detecting =>
      [{ from_ := [.detecting], to_ := .proposing },
       { from_ := [.detecting], to_ := .evidence_gathering }]
  | .proposing =>
      [{ from_ := [.proposing], to_ := .liveness }]
  | .liveness =>
      [{ from_ := [.liveness], to_ := .disputed },
       { from_ := [.liveness], to_ := .monitoring },
       { from_ := [.liveness], to_ := .resolved }]
  | .disputed =>
      [{ from_ := [.disputed], to_ := .arbitration },
       { from_ := [.disputed], to_ := .liveness }]
  | .arbitration =>
      [{ from_ := [.arbitration], to_ := .resolved },
       { from_ := [.arbitration], to_ := .liveness }]
  | .resolved =>
      [{ from_ := [.resolved], to_ := .settled }]
  | _ => []

/-- Errors thrown by `StateMachineService.transition`. -/
inductive TransitionError where
  | invalidTransition (fromState toState : ResolutionState)
  | conditionNotMet (fromState toState : ResolutionState)
  | actionFailed (toState : ResolutionState)
deriving DecidableEq, Repr

/-- Tail of `StateMachineService.transition`: run the optional action of the
matched row, then assign `context.currentState = targetState`.  A throwing
action leaves the caller's context untouched. -/
def runAction (t : StateTransition) (context : ResolutionContext)
    (targetState : ResolutionState) : ResolutionContext × Option TransitionError :=
  match t.action with
  | some act =>
      match act context with
      | none => (context, some (.actionFailed targetState))
      | some context2 => ({ context2 with currentState := targetState }, none)
  | none => ({ context with currentState := targetState }, none)

/-- `StateMachineService.transition`, over an arbitrary transitions table
(the source reads the service's `transitions` field).  Mirrors the source
exactly: the table is looked up with `targetState`, the first row whose
`from` list contains `currentState` is taken (`find`), the `to` field of
the row is never consulted; on any throw the pair carries the caller's
context unchanged, on success the context with `currentState :=
targetState`. -/
def transitionWith (table : ResolutionState → List StateTransition)
    (context : ResolutionContext) (targetState : ResolutionState) :
    ResolutionContext × Option TransitionError :=
  let currentState := context.currentState
  let validTransitions := table targetState
  match validTransitions.find? (fun t => t.from_.contains currentState) with
  | none => (context, some (.invalidTransition currentState targetState))
  | some t =>
      match t.condition with
      | some cond =>
          if cond context then runAction t context targetState
          else (context, some (.conditionNotMet currentState targetState))
      | none => runAction t context targetState

namespace StateMachineService

/-- `StateMachineService.transition` of `state-machine.service.ts`,
instantiated with the service's own `transitions` map. -/
def transition (context : ResolutionContext) (targetState : ResolutionState) :
    ResolutionContext × Option TransitionError :=
  transitionWith transitions context targetState

/-- `StateMachineService.canTransition`: lookup with `targetState`, then
`some((t) => t.from.includes(currentState))`. -/
def canTransition (currentState targetState : ResolutionState) : Bool :=
  let validTransitions := transitions targetState
  validTransitions.any (fun t => t.from_.contains currentState)

end StateMachineService

/-- The transition table of §4.3 of the specification, written from the
spec's words (for comparison with the behaviour of the source's
`canTransition`): the 13 directed edges listed in the claim. -/
def specTransitionTable : List (ResolutionState × ResolutionState) :=
  [(.created, .detecting), (.created, .evidence_gathering),
   (.detecting, .proposing), (.detecting, .evidence_gathering),
   (.proposing, .liveness),
   (.liveness, .disputed), (.liveness, .monitoring), (.liveness, .resolved),
   (.disputed, .arbitration), (.disputed, .liveness),
   (.arbitration, .resolved), (.arbitration, .liveness),
   (.resolved, .settled)]

/-- A concrete context sitting in state `created`. -/
def ctxCreated : ResolutionContext :=
  { eventId := "e1", currentState := .created }

/-- C1: the claim states that a transition is accepted iff `(from → to)` is
an edge of the §4.3 table.  This is false on the code: `created →
detecting` is an edge of the table, yet `canTransition created detecting`
returns `false` and `transition` signals `InvalidTransition`, because the
`transitions` map is keyed by source state but looked up with
`targetState`, and the matched row's `to` field is never checked; dually,
`liveness → liveness` is not an edge of the table yet is accepted. -/
theorem c1_canTransition_diverges_from_spec_table :
    StateMachineService.canTransition .created .detecting = false
    ∧ (ResolutionState.created, ResolutionState.detecting) ∈ specTransitionTable
    ∧ StateMachineService.transition ctxCreated .detecting
        = (ctxCreated, some (.invalidTransition .created .detecting))
    ∧ StateMachineService.canTransition .liveness .liveness = true
    ∧ (ResolutionState.liveness, ResolutionState.liveness) ∉ specTransitionTable := by
  refine ⟨by decide, by decide, ?_, by decide, by decide⟩
  decide

/-- Unfolding equation of `transitionWith` when no row of the looked-up
bucket matches the current state. -/
theorem transitionWith_of_find_none {table : ResolutionState → List StateTransition}
    {context : ResolutionContext} {targetState : ResolutionState}
    (h : (table targetState).find? (fun t => t.from_.contains context.currentState) = none) :
    transitionWith table context targetState
      = (context, some (.invalidTransition context.currentState targetState)) := by
  simp only [transitionWith, h]

/-- Unfolding equation of `transitionWith` when a row matches and carries a
condition hook. -/
theorem transitionWith_of_cond_some {table : ResolutionState → List StateTransition}
    {context : ResolutionContext} {targetState : ResolutionState} {t : StateTransition}
    {cond : ResolutionContext → Bool}
    (hfind : (table targetState).find? (fun t => t.from_.contains context.currentState) = some t)
    (hcond : t.condition = some cond) :
    transitionWith table context targetState
      = if cond context then runAction t context targetState
        else (context, some (.conditionNotMet context.currentState targetState)) := by
  simp only [transitionWith, hfind, hcond]

/-- Unfolding equation of `transitionWith` when a row matches and carries no
condition hook. -/
theorem transitionWith_of_cond_none {table : ResolutionState → List StateTransition}
    {context : ResolutionContext} {targetState : ResolutionState} {t : StateTransition}
    (hfind : (table targetState).find? (fun t => t.from_.contains context.currentState) = some t)
    (hcond : t.condition = none) :
    transitionWith table context targetState = runAction t context targetState := by
  simp only [transitionWith, hfind, hcond]

/-- Frame property of `runAction`: a throwing action leaves the context
unchanged; on success the `currentState` is the target and the action
(when present) completed. -/
theorem runAction_frame (t : StateTransition) (context : ResolutionContext)
    (targetState : ResolutionState) :
    ((runAction t context targetState).2.isSome = true →
      (runAction t context targetState).1 = context)
    ∧ ((runAction t context targetState).2 = none →
      (runAction t context targetState).1.currentState = targetState
      ∧ ∀ act, t.action = some act → (act context).isSome = true) := by
  rcases hact : t.action with _ | act
  · simp [runAction, hact]
  · rcases ha : act context with _ | context2
    · simp [runAction, hact, ha]
    · simp [runAction, hact, ha]

/-- C10: `transition` never changes the caller's context when it fails
(invalid transition, failed condition, or throwing action), and assigns
`currentState := targetState` only when a row of the looked-up bucket
matches `currentState`, its condition (when present) evaluates true on the
context, and its action (when present) has completed. -/
theorem c10_transition_failure_frame (table : ResolutionState → List StateTransition)
    (context : ResolutionContext) (targetState : ResolutionState) :
    ((transitionWith table context targetState).2.isSome = true →
      (transitionWith table context targetState).1 = context)
    ∧ ((transitionWith table context targetState).2 = none →
      (transitionWith table context targetState).1.currentState = targetState
      ∧ ∃ t, t ∈ table targetState
          ∧ t.from_.contains context.currentState = true
          ∧ (∀ cond, t.condition = some cond → cond context = true)
          ∧ (∀ act, t.action = some act → (act context).isSome = true)) := by
  rcases hfind : (table targetState).find? (fun t => t.from_.contains context.currentState)
    with _ | t
  · rw [transitionWith_of_find_none hfind]
    exact ⟨fun _ => rfl, fun h => by simp at h⟩
  · have hmem : t ∈ table targetState := List.mem_of_find?_eq_some hfind
    have hfrom : t.from_.contains context.currentState = true := by
      have h := List.find?_some hfind
      simpa using h
    rcases hcond : t.condition with _ | cond
    · rw [transitionWith_of_cond_none hfind hcond]
      refine ⟨(runAction_frame t context targetState).1, fun h => ?_⟩
      obtain ⟨h1, h2⟩ := (runAction_frame t context targetState).2 h
      refine ⟨h1, t, hmem, hfrom, ?_, h2⟩
      intro cond hc
      rw [hcond] at hc
      cases hc
    · rw [transitionWith_of_cond_some hfind hcond]
      rcases hc : cond context with _ | _
      · exact ⟨fun _ => rfl, fun h => by simp at h⟩
      · simp only [if_true]
        refine ⟨(runAction_frame t context targetState).1, fun h => ?_⟩
        obtain ⟨h1, h2⟩ := (runAction_frame t context targetState).2 h
        refine ⟨h1, t, hmem, hfrom, ?_, h2⟩
        intro cond' hc'
        rw [hcond] at hc'
        cases hc'
        exact hc

/-- Witness for C10 at a concrete input: requesting `created → detecting`
fails (per C1's finding), and the theorem yields that the context is
returned unchanged. -/
theorem c10_transition_failure_frame_witness :
    (transitionWith transitions ctxCreated .detecting).1 = ctxCreated :=
  (c10_transition_failure_frame transitions ctxCreated .detecting).1 (by decide)

/-! ## The orchestrator: data, environment, world and effects -/

/-- The event record fetched from the event-manager peer
(`GET /events/{id}`): the fields `processEvent` and `settleEvent` read. -/
structure EventData where
  status : ResolutionState
  metadata : List (String × String) := []
deriving DecidableEq, Repr

/-- The proposal record fetched from the proposal peer
(`GET /proposals/{id}`): the fields the orchestrator reads.  `status` is a
plain string, compared against the literal `"liveness"` in
`checkFinalizationConditions`. -/
structure ProposalData where
  proposalId : String
  eventId : String
  status : String
  livenessExpiry : Int
deriving DecidableEq, Repr

/-- A cached value.  Modelled from the spec: the Cache Adapter (the source
imports `./cache.service`, which is not under `src/`) stores opaque
serialized values; the orchestrator serializes with `JSON.stringify` and
parses on read, so a stored record round-trips.  The embedding stores the
typed record directly. -/
inductive CacheVal where
  | ev (e : EventData)
  | prop (p : ProposalData)
deriving DecidableEq, Repr

/-- Cache lookup by exact key.  Modelled from the spec: `get(key) →
value?` of the Cache Adapter (§4.1). -/
def lookupCache : List (String × CacheVal) → String → Option CacheVal
  | [], _ => none
  | (k, v) :: rest, key => if k = key then some v else lookupCache rest key

/-- Cache write.  Modelled from the spec: `set(key, value, ttlSeconds)` of
the Cache Adapter (§4.1); the TTL only bounds retention and is not part of
the functional behaviour modelled here. -/
def setCache : List (String × CacheVal) → String → CacheVal → List (String × CacheVal)
  | [], key, v => [(key, v)]
  | (k0, v0) :: rest, key, v =>
      if k0 = key then (key, v) :: rest else (k0, v0) :: setCache rest key v

/-- Cache deletion.  Modelled from the spec: `delete(key)` of the Cache
Adapter (§4.1). -/
def deleteCache (cache : List (String × CacheVal)) (key : String) :
    List (String × CacheVal) :=
  cache.filter (fun kv => kv.1 != key)

/-- Split a glob pattern at its first `*`, if any. -/
def splitStar : List Char → Option (List Char × List Char)
  | [] => none
  | c :: rest =>
      if c = '*' then some ([], rest)
      else match splitStar rest with
        | none => none
        | some (a, b) => some (c :: a, b)

/-- Glob matching for single-star patterns.  Modelled from the spec:
`keys(pattern)` of the Cache Adapter supports glob-style patterns of shape
`prefix:*:suffix` (§4.1); `*` matches any (possibly empty) run of
characters. -/
def globMatch (pattern key : String) : Bool :=
  match splitStar pattern.data with
  | none => pattern = key
  | some (pre, suf) =>
      pre.isPrefixOf key.data && suf.isSuffixOf key.data
        && decide (pre.length + suf.length ≤ key.data.length)

/-- Cache key scan.  Modelled from the spec: `keys(pattern) → [key]` of the
Cache Adapter (§4.1). -/
def keysCache (cache : List (String × CacheVal)) (pattern : String) : List String :=
  (cache.filter (fun kv => globMatch pattern kv.1)).map (fun kv => kv.1)

/-- Bull job states (§4.4). -/
inductive JobStatus where
  | delayed
  | waiting
  | active
  | completed
  | failed
deriving DecidableEq, Repr

/-- A job on the `liveness-monitoring` queue, carrying `{ proposalId }`. -/
structure LivenessJob where
  proposalId : String
  status : JobStatus
deriving DecidableEq, Repr

/-- A job on the `settlement-processing` queue, carrying `{ eventId }`. -/
structure SettlementJob where
  eventId : String
  status : JobStatus
deriving DecidableEq, Repr

/-- One observable side effect of an orchestrator operation. -/
inductive Effect where
  | httpGet (peer id : String)
  | httpPost (peer id : String)
  | httpPatch (eventId : String) (status : ResolutionState)
  | cacheSet (key : String)
  | cacheDelete (key : String)
  | chainFinalize (proposalId : String)
  | chainSettle (eventId : String)
  | queueAdd (queue jobType id : String) (delay : Int)
  | queueRemove (queue id : String)
deriving DecidableEq, Repr

/-- Errors surfaced by orchestrator operations. -/
inductive RErr where
  | httpError (peer : String)
  | chainError (what : String)
  | finalizationConditionsNotMet
  | eventNotResolved
  | stateMachineError (e : TransitionError)
deriving DecidableEq, Repr

/-- The external collaborators of the orchestrator, fixed for the duration
of one call: the clock (`Date.now()`), the responses of the HTTP peers and
the outcomes of chain transactions.  `none` from a peer, or `false` for a
transaction, models the call throwing. -/
structure Env where
  now : Int
  eventService : String → Option EventData
  proposalService : String → Option ProposalData
  disputeService : String → Option (List String)
  rewardPostOk : Bool := true
  notifyPostOk : Bool := true
  patchOk : Bool := true
  chainFinalizeOk : Bool := true
  chainSettleOk : Bool := true

/-- The mutable state the orchestrator acts on: the cache contents and the
two named queues. -/
structure World where
  cache : List (String × CacheVal) := []
  livenessQueue : List LivenessJob := []
  settlementQueue : List SettlementJob := []
deriving DecidableEq, Repr

/-- Result of one orchestrator operation: its outcome, the world it leaves
behind, and the side effects it issued, in order. -/
structure Out (α : Type) where
  res : Except RErr α
  world : World
  effs : List Effect
deriving Repr

namespace ResolutionService

/-- `fetchEventData`: read-through of `event:{eventId}` with fallback to
`GET /events/{id}` on the event-manager peer, writing the fetched record
back to the cache. -/
def fetchEventData (env : Env) (eventId : String) (w : World) : Out EventData :=
  let cacheKey := "event:" ++ eventId
  match lookupCache w.cache cacheKey with
  | some (.ev e) => ⟨.ok e, w, []⟩
  | _ =>
      match env.eventService eventId with
      | none => ⟨.error (.httpError "event-manager"), w, [.httpGet "event-manager" eventId]⟩
      | some e =>
          ⟨.ok e, { w with cache := setCache w.cache cacheKey (.ev e) },
            [.httpGet "event-manager" eventId, .cacheSet cacheKey]⟩

/-- `fetchProposalData`: read-through of `proposal:{proposalId}` with
fallback to `GET /proposals/{id}` on the proposal peer. -/
def fetchProposalData (env : Env) (proposalId : String) (w : World) : Out ProposalData :=
  let cacheKey := "proposal:" ++ proposalId
  match lookupCache w.cache cacheKey with
  | some (.prop p) => ⟨.ok p, w, []⟩
  | _ =>
      match env.proposalService proposalId with
      | none => ⟨.error (.httpError "proposal"), w, [.httpGet "proposal" proposalId]⟩
      | some p =>
          ⟨.ok p, { w with cache := setCache w.cache cacheKey (.prop p) },
            [.httpGet "proposal" proposalId, .cacheSet cacheKey]⟩

/-- `fetchProposalDisputes`: `GET /disputes?proposalId=…`, no caching. -/
def fetchProposalDisputes (env : Env) (proposalId : String) (w : World) :
    Out (List String) :=
  match env.disputeService proposalId with
  | none => ⟨.error (.httpError "dispute"), w, [.httpGet "dispute" proposalId]⟩
  | some ds => ⟨.ok ds, w, [.httpGet "dispute" proposalId]⟩

/-- `updateEventState`: PATCH the event-manager peer, then invalidate
`event:{eventId}`.  A failed PATCH throws before the invalidation. -/
def updateEventState (env : Env) (eventId : String) (state : ResolutionState)
    (w : World) : Out Unit :=
  if env.patchOk then
    ⟨.ok (), { w with cache := deleteCache w.cache ("event:" ++ eventId) },
      [.httpPatch eventId state, .cacheDelete ("event:" ++ eventId)]⟩
  else ⟨.error (.httpError "event-manager"), w, [.httpPatch eventId state]⟩

/-- `distributeRewards`: POST `/distribute` on the reward peer inside
`try { … } catch { log }` — a failing POST is logged and swallowed. -/
def distributeRewards (env : Env) (eventId : String) (w : World) : Out Unit :=
  let post : Except RErr Unit :=
    if env.rewardPostOk then .ok () else .error (.httpError "reward")
  match post with
  | .ok () => ⟨.ok (), w, [.httpPost "reward" eventId]⟩
  | .error _ => ⟨.ok (), w, [.httpPost "reward" eventId]⟩

/-- `notifyArbitrators`: POST `/notify-arbitrators` on the notification
peer inside `try { … } catch { log }` — a failing POST is logged and
swallowed. -/
def notifyArbitrators (env : Env) (proposalId : String) (w : World) : Out Unit :=
  let post : Except RErr Unit :=
    if env.notifyPostOk then .ok () else .error (.httpError "notification")
  match post with
  | .ok () => ⟨.ok (), w, [.httpPost "notification" proposalId]⟩
  | .error _ => ⟨.ok (), w, [.httpPost "notification" proposalId]⟩

/-- `scheduleLivenessMonitoring`: enqueue a delayed `check-liveness` job
with `delay = max(0, livenessExpiry − now)`. -/
def scheduleLivenessMonitoring (env : Env) (proposalId : String)
    (livenessExpiry : Int) (w : World) : Out Unit :=
  let delay := max 0 (livenessExpiry - env.now)
  ⟨.ok (), { w with livenessQueue := w.livenessQueue ++ [⟨proposalId, .delayed⟩] },
    [.queueAdd "liveness-monitoring" "check-liveness" proposalId delay]⟩

/-- `pauseLivenessMonitoring`: scan the liveness queue for jobs in
`{delayed, waiting}` and remove those whose payload `proposalId` matches. -/
def pauseLivenessMonitoring (proposalId : String) (w : World) : Out Unit :=
  let matches_ := fun (j : LivenessJob) =>
    (j.status = JobStatus.delayed ∨ j.status = JobStatus.waiting) ∧ j.proposalId = proposalId
  let removed := w.livenessQueue.filter (fun j => decide (matches_ j))
  ⟨.ok (), { w with livenessQueue := w.livenessQueue.filter (fun j => !decide (matches_ j)) },
    removed.map (fun j => .queueRemove "liveness-monitoring" j.proposalId)⟩

/-- `scheduleSettlement`: enqueue a delayed `settle-event` job with a
60 s delay. -/
def scheduleSettlement (eventId : String) (w : World) : Out Unit :=
  ⟨.ok (), { w with settlementQueue := w.settlementQueue ++ [⟨eventId, .delayed⟩] },
    [.queueAdd "settlement-processing" "settle-event" eventId 60000]⟩

/-- `cleanupEventData`: delete `event:{eventId}`, then scan
`proposal:*:{eventId}` and delete every matching key. -/
def cleanupEventData (eventId : String) (w : World) : Out Unit :=
  let w1 := { w with cache := deleteCache w.cache ("event:" ++ eventId) }
  let proposalIds := keysCache w1.cache ("proposal:*:" ++ eventId)
  let w2 := { w1 with cache := proposalIds.foldl deleteCache w1.cache }
  ⟨.ok (), w2,
    .cacheDelete ("event:" ++ eventId) :: proposalIds.map (fun k => .cacheDelete k)⟩

/-- The chain adapter's `finalizeProposal` transaction
(`blockchain.service.ts`). -/
def chainFinalizeProposal (env : Env) (proposalId : String) (w : World) : Out Unit :=
  if env.chainFinalizeOk then ⟨.ok (), w, [.chainFinalize proposalId]⟩
  else ⟨.error (.chainError "finalizeProposal"), w, [.chainFinalize proposalId]⟩

/-- The chain adapter's `settleEvent` transaction (`blockchain.service.ts`). -/
def chainSettleEvent (env : Env) (eventId : String) (w : World) : Out Unit :=
  if env.chainSettleOk then ⟨.ok (), w, [.chainSettle eventId]⟩
  else ⟨.error (.chainError "settleEvent"), w, [.chainSettle eventId]⟩

/-- `checkFinalizationConditions`: `false` unless the proposal's status is
`"liveness"`; `false` when `now < livenessExpiry`; otherwise query the
dispute peer for `proposal.proposalId` and report whether the list is
empty.  A throwing dispute query propagates. -/
def checkFinalizationConditions (env : Env) (proposal : ProposalData) (w : World) :
    Out Bool :=
  if proposal.status ≠ "liveness" then ⟨.ok false, w, []⟩
  else if env.now < proposal.livenessExpiry then ⟨.ok false, w, []⟩
  else
    let o := fetchProposalDisputes env proposal.proposalId w
    match o.res with
    | .error e => ⟨.error e, o.world, o.effs⟩
    | .ok disputes => ⟨.ok (disputes.length = 0), o.world, o.effs⟩

/-- `processEvent`: fetch the event (cache-through), build a context whose
`currentState` is the fetched status, and replay a state-machine transition
into that same status. -/
def processEvent (env : Env) (eventId : String) (w : World) : Out ResolutionContext :=
  let o := fetchEventData env eventId w
  match o.res with
  | .error e => ⟨.error e, o.world, o.effs⟩
  | .ok event =>
      let context : ResolutionContext :=
        { eventId := eventId, currentState := event.status,
          metadata := event.metadata, timestamp := env.now }
      match StateMachineService.transition context event.status with
      | (context2, none) => ⟨.ok context2, o.world, o.effs⟩
      | (_, some e) => ⟨.error (.stateMachineError e), o.world, o.effs⟩

/-- `handleDisputeDetected`: fetch the proposal, move its event to
DISPUTED, notify arbitrators (best effort), then cancel the outstanding
liveness jobs for the proposal before returning. -/
def handleDisputeDetected (env : Env) (proposalId : String) (w : World) : Out Unit :=
  let o1 := fetchProposalData env proposalId w
  match o1.res with
  | .error e => ⟨.error e, o1.world, o1.effs⟩
  | .ok proposal =>
      let o2 := updateEventState env proposal.eventId .disputed o1.world
      match o2.res with
      | .error e => ⟨.error e, o2.world, o1.effs ++ o2.effs⟩
      | .ok () =>
          let o3 := notifyArbitrators env proposalId o2.world
          let o4 := pauseLivenessMonitoring proposalId o3.world
          ⟨.ok (), o4.world, o1.effs ++ o2.effs ++ o3.effs ++ o4.effs⟩

/-- `finalizeProposal`: fetch the proposal, evaluate the finalization gate,
throw `PreconditionNotMet` when it is false, otherwise issue the on-chain
finalize, move the event to RESOLVED and schedule settlement. -/
def finalizeProposal (env : Env) (proposalId : String) (w : World) : Out Unit :=
  let o1 := fetchProposalData env proposalId w
  match o1.res with
  | .error e => ⟨.error e, o1.world, o1.effs⟩
  | .ok proposal =>
      let o2 := checkFinalizationConditions env proposal o1.world
      match o2.res with
      | .error e => ⟨.error e, o2.world, o1.effs ++ o2.effs⟩
      | .ok canFinalize =>
          if !canFinalize then
            ⟨.error .finalizationConditionsNotMet, o2.world, o1.effs ++ o2.effs⟩
          else
            let o3 := chainFinalizeProposal env proposalId o2.world
            match o3.res with
            | .error e => ⟨.error e, o3.world, o1.effs ++ o2.effs ++ o3.effs⟩
            | .ok () =>
                let o4 := updateEventState env proposal.eventId .resolved o3.world
                match o4.res with
                | .error e => ⟨.error e, o4.world, o1.effs ++ o2.effs ++ o3.effs ++ o4.effs⟩
                | .ok () =>
                    let o5 := scheduleSettlement proposal.eventId o4.world
                    ⟨o5.res, o5.world, o1.effs ++ o2.effs ++ o3.effs ++ o4.effs ++ o5.effs⟩

/-- `settleEvent`: fetch the event, require status RESOLVED, issue the
on-chain settle, distribute rewards (best effort), move the event to
SETTLED, then purge the cache. -/
def settleEvent (env : Env) (eventId : String) (w : World) : Out Unit :=
  let o1 := fetchEventData env eventId w
  match o1.res with
  | .error e => ⟨.error e, o1.world, o1.effs⟩
  | .ok event =>
      if event.status ≠ ResolutionState.resolved then
        ⟨.error .eventNotResolved, o1.world, o1.effs⟩
      else
        let o2 := chainSettleEvent env eventId o1.world
        match o2.res with
        | .error e => ⟨.error e, o2.world, o1.effs ++ o2.effs⟩
        | .ok () =>
            let o3 := distributeRewards env eventId o2.world
            let o4 := updateEventState env eventId .settled o3.world
            match o4.res with
            | .error e => ⟨.error e, o4.world, o1.effs ++ o2.effs ++ o3.effs ++ o4.effs⟩
            | .ok () =>
                let o5 := cleanupEventData eventId o4.world
                ⟨o5.res, o5.world, o1.effs ++ o2.effs ++ o3.effs ++ o4.effs ++ o5.effs⟩

end ResolutionService

/-! ## The chain indexer -/

/-- One `EventCreated` log extracted from the chain. -/
structure ChainLog where
  eventId : String
  blockNumber : Int
  transactionHash : String
deriving DecidableEq, Repr

/-- The indexer's collaborators for one tick: the chain head, the logs the
`EventCreated` filter yields over a block range, and the outcomes of the
provider read, of the range query, and of each event-manager POST. -/
structure IndexerEnv where
  head : Int
  providerOk : Bool := true
  hasOracleRegistry : Bool := true
  queryOk : Bool := true
  logs : Int → Int → List ChainLog
  postOk : ChainLog → Bool := fun _ => true

/-- One observable side effect of an indexer tick: a POST of a normalized
record to the event-manager peer, with its outcome (a failed POST is
caught and logged by `handleEventCreated`). -/
inductive IEffect where
  | post (l : ChainLog) (ok : Bool)
deriving DecidableEq, Repr

namespace IndexerService

/-- `handleEventCreated`: POST the normalized record inside
`try { … } catch { log }` — a failing POST never propagates. -/
def handleEventCreated (env : IndexerEnv) (l : ChainLog) : List IEffect :=
  let post : Except Unit Unit := if env.postOk l then .ok () else .error ()
  match post with
  | .ok () => [.post l true]
  | .error () => [.post l false]

/-- `processBlocks`: return early when the `oracleRegistry` contract is not
loaded; query the `EventCreated` filter over `[fromBlock, toBlock]` (a
failing query throws); handle each log in order. -/
def processBlocks (env : IndexerEnv) (fromBlock toBlock : Int) :
    Except Unit (List IEffect) :=
  if !env.hasOracleRegistry then .ok []
  else if !env.queryOk then .error ()
  else .ok ((env.logs fromBlock toBlock).foldl
      (fun acc l => acc ++ handleEventCreated env l) [])

/-- `indexNewBlocks`: one cron tick over the mutable `lastIndexedBlock`
field.  The whole body is wrapped in `try { … } catch { log }`: a failed
provider read leaves the field untouched; seeding `head − 100` happens
before `processBlocks`, so it survives a thrown query; the field advances
to the head only when `processBlocks` returns. -/
def indexNewBlocks (env : IndexerEnv) (lastIndexedBlock : Int) : Int × List IEffect :=
  if !env.providerOk then (lastIndexedBlock, [])
  else
    let currentBlock := env.head
    let seeded := if lastIndexedBlock = 0 then currentBlock - 100 else lastIndexedBlock
    if currentBlock > seeded then
      match processBlocks env (seeded + 1) currentBlock with
      | .ok effs => (currentBlock, effs)
      | .error () => (seeded, [])
    else (seeded, [])

end IndexerService

/-! ## Claims about the orchestrator -/

open ResolutionService

/-- A proposal sitting in its liveness window, expiring at time 1000. -/
def pLive : ProposalData :=
  { proposalId := "p1", eventId := "e1", status := "liveness", livenessExpiry := 1000 }

/-- An environment whose clock reads exactly the liveness expiry of
`pLive` and whose dispute peer reports no open disputes. -/
def envBoundary : Env :=
  { now := 1000, eventService := fun _ => none,
    proposalService := fun i => if i = "p1" then some pLive else none,
    disputeService := fun _ => some [] }

/-- C3 counterexample: the claim says a finalization attempt at exactly
`now == livenessExpiry` fails the guard (strict `>`).  On the code the
comparison is `now < livenessExpiry → reject`, so at `now ==
livenessExpiry` with status `"liveness"` and zero open disputes the guard
returns `true`. -/
theorem c3_boundary_counterexample :
    (checkFinalizationConditions envBoundary pLive {}).res = .ok true := rfl

/-- C3 (amended): a finalization attempt at exactly `now == livenessExpiry`
on a proposal in status `"liveness"` with zero open disputes passes the
guard — the time comparison is non-strict (`now ≥ livenessExpiry`
suffices), matching invariant I-F1. -/
theorem c3_boundary_guard_passes (env : Env) (p : ProposalData) (w : World)
    (hstatus : p.status = "liveness") (hnow : env.now = p.livenessExpiry)
    (hdisputes : env.disputeService p.proposalId = some []) :
    (checkFinalizationConditions env p w).res = .ok true := by
  unfold checkFinalizationConditions fetchProposalDisputes
  rw [hstatus, hnow, hdisputes]
  simp

/-- Witness for C3's amended theorem at the concrete boundary input. -/
theorem c3_boundary_guard_passes_witness :
    (checkFinalizationConditions envBoundary pLive {}).res = .ok true :=
  c3_boundary_guard_passes envBoundary pLive {} rfl rfl rfl

/-- The event `e1`, resolved and ready for settlement. -/
def evResolved : EventData := { status := .resolved }

/-- A world whose cache holds the resolved event `e1` and the proposal
record `p1` for that event, stored (as the set-path does) under the key
`proposal:p1`. -/
def wSettle : World :=
  { cache := [("event:e1", .ev evResolved), ("proposal:p1", .prop pLive)] }

/-- An environment in which every step of settlement succeeds. -/
def envSettle : Env :=
  { now := 2000, eventService := fun _ => none, proposalService := fun _ => none,
    disputeService := fun _ => some [] }

/-- C7: the claim says that after a successful `settleEvent` no proposal
cache entry associated with the event remains.  On the code, cleanup scans
the pattern `proposal:*:{eventId}`, but the set-path stores proposal
records under `proposal:{proposalId}`, which the pattern does not match:
after `settleEvent "e1"` succeeds, `event:e1` is indeed a miss, but the
entry `proposal:p1` — whose record's `eventId` is `"e1"` — survives. -/
theorem c7_cleanup_leaves_proposal_cache :
    (settleEvent envSettle "e1" wSettle).res = .ok ()
    ∧ lookupCache (settleEvent envSettle "e1" wSettle).world.cache "event:e1" = none
    ∧ lookupCache (settleEvent envSettle "e1" wSettle).world.cache "proposal:p1"
        = some (.prop pLive)
    ∧ pLive.eventId = "e1" := by
  refine ⟨rfl, rfl, rfl, rfl⟩

/-- `distributeRewards` always succeeds and leaves the world unchanged: its
only observable behaviour is the POST attempt. -/
theorem distributeRewards_run (env : Env) (eventId : String) (w : World) :
    distributeRewards env eventId w = ⟨.ok (), w, [.httpPost "reward" eventId]⟩ := by
  unfold distributeRewards
  rcases env.rewardPostOk <;> rfl

/-- `notifyArbitrators` always succeeds and leaves the world unchanged: its
only observable behaviour is the POST attempt. -/
theorem notifyArbitrators_run (env : Env) (proposalId : String) (w : World) :
    notifyArbitrators env proposalId w = ⟨.ok (), w, [.httpPost "notification" proposalId]⟩ := by
  unfold notifyArbitrators
  rcases env.notifyPostOk <;> rfl

/-- C9: failures of the best-effort side channels are swallowed: the
reward-distribution POST and the arbitrator-notification POST always
return success to their caller, and the entire observable behaviour of
`settleEvent` (resp. `handleDisputeDetected`) — outcome, world and
effects — is independent of whether the reward POST (resp. the
notification POST) succeeds, so the parent operation continues with its
remaining steps either way. -/
theorem c9_best_effort_side_channels (env : Env) (eventId proposalId : String)
    (w : World) (b : Bool) :
    (distributeRewards env eventId w).res = .ok ()
    ∧ (notifyArbitrators env proposalId w).res = .ok ()
    ∧ settleEvent { env with rewardPostOk := b } eventId w = settleEvent env eventId w
    ∧ handleDisputeDetected { env with notifyPostOk := b } proposalId w
        = handleDisputeDetected env proposalId w := by
  have hf : fetchEventData { env with rewardPostOk := b } = fetchEventData env := rfl
  have hcs : chainSettleEvent { env with rewardPostOk := b } = chainSettleEvent env := rfl
  have hup : updateEventState { env with rewardPostOk := b } = updateEventState env := rfl
  have hfp : fetchProposalData { env with notifyPostOk := b } = fetchProposalData env := rfl
  have hup2 : updateEventState { env with notifyPostOk := b } = updateEventState env := rfl
  refine ⟨by rw [distributeRewards_run], by rw [notifyArbitrators_run], ?_, ?_⟩
  · unfold settleEvent
    simp only [distributeRewards_run, hf, hcs, hup]
  · unfold handleDisputeDetected
    simp only [notifyArbitrators_run, hfp, hup2]

/-- The effects a `fetchEventData` call can issue: nothing (cache hit), a
GET (fetch that throws), or a GET followed by a cache write. -/
theorem fetchEventData_effs (env : Env) (eventId : String) (w : World) :
    (fetchEventData env eventId w).effs = []
    ∨ (fetchEventData env eventId w).effs = [.httpGet "event-manager" eventId]
    ∨ (fetchEventData env eventId w).effs
        = [.httpGet "event-manager" eventId, .cacheSet ("event:" ++ eventId)] := by
  simp only [fetchEventData]
  rcases hl : lookupCache w.cache ("event:" ++ eventId) with _ | v
  · rcases hs : env.eventService eventId with _ | e
    · exact Or.inr (Or.inl rfl)
    · exact Or.inr (Or.inr rfl)
  · rcases v with e | p
    · exact Or.inl rfl
    · rcases hs : env.eventService eventId with _ | e
      · exact Or.inr (Or.inl rfl)
      · exact Or.inr (Or.inr rfl)

/-- The effect kinds that `settleEvent`'s later steps would issue: the
on-chain settle, an HTTP POST (rewards), the state PATCH, or a cache
purge. -/
def isSettleSideEffect : Effect → Bool
  | .chainSettle _ => true
  | .httpPost _ _ => true
  | .httpPatch _ _ => true
  | .cacheDelete _ => true
  | _ => false

/-- C6: when the fetched event's status is not RESOLVED, `settleEvent`
fails with the not-resolved error and does so atomically: among its
issued effects there is no on-chain settle, no HTTP POST (so no reward
distribution), no state PATCH to the event-manager peer, and no cache
deletion. -/
theorem c6_settle_requires_resolved (env : Env) (eventId : String) (w : World)
    (e : EventData) (h1 : (fetchEventData env eventId w).res = .ok e)
    (h2 : e.status ≠ ResolutionState.resolved) :
    (settleEvent env eventId w).res = .error .eventNotResolved
    ∧ (settleEvent env eventId w).effs.filter isSettleSideEffect = [] := by
  have hs : settleEvent env eventId w
      = ⟨.error .eventNotResolved, (fetchEventData env eventId w).world,
         (fetchEventData env eventId w).effs⟩ := by
    unfold settleEvent
    simp only [h1]
    rw [if_pos h2]
  refine ⟨by rw [hs], ?_⟩
  rw [hs]
  rcases fetchEventData_effs env eventId w with h | h | h <;>
    simp [h, isSettleSideEffect]

/-- An environment whose event-manager peer serves `e1` still in its
liveness window. -/
def envLiveEvent : Env :=
  { now := 500, eventService := fun i => if i = "e1" then some { status := .liveness } else none,
    proposalService := fun _ => none, disputeService := fun _ => some [] }

/-- Witness for C6: settling `e1` while it is in LIVENESS fails with no
settle transaction, no POST, no PATCH and no cache deletion. -/
theorem c6_settle_requires_resolved_witness :
    (settleEvent envLiveEvent "e1" {}).res = .error .eventNotResolved
    ∧ (settleEvent envLiveEvent "e1" {}).effs.filter isSettleSideEffect = [] :=
  c6_settle_requires_resolved envLiveEvent "e1" {} { status := .liveness } rfl (by decide)

/-- After `pauseLivenessMonitoring pid`, no job for `pid` in state
`delayed` or `waiting` remains on the liveness queue. -/
theorem pauseLivenessMonitoring_clears (pid : String) (w : World) :
    ((pauseLivenessMonitoring pid w).world.livenessQueue.filter
      (fun j => j.proposalId == pid
        && (j.status == JobStatus.delayed || j.status == JobStatus.waiting))) = [] := by
  unfold pauseLivenessMonitoring
  rw [List.filter_eq_nil_iff]
  intro j hj
  rw [List.mem_filter] at hj
  obtain ⟨-, hnm⟩ := hj
  simp only [Bool.not_eq_true', decide_eq_false_iff_not] at hnm
  simp only [Bool.and_eq_true, Bool.or_eq_true, beq_iff_eq]
  rintro ⟨hpid, hstatus⟩
  exact hnm ⟨hstatus, hpid⟩

/-- C4: when `handleDisputeDetected` returns successfully, zero
LivenessJobs for the given `proposalId` in state `delayed` or `waiting`
remain on the liveness queue. -/
theorem c4_dispute_cancels_liveness_jobs (env : Env) (proposalId : String) (w : World)
    (h : (handleDisputeDetected env proposalId w).res = .ok ()) :
    ((handleDisputeDetected env proposalId w).world.livenessQueue.filter
      (fun j => j.proposalId == proposalId
        && (j.status == JobStatus.delayed || j.status == JobStatus.waiting))) = [] := by
  rcases h1 : (fetchProposalData env proposalId w).res with err | p
  · simp [handleDisputeDetected, h1] at h
  · cases hp : env.patchOk
    · simp [handleDisputeDetected, updateEventState, h1, hp] at h
    · simp only [handleDisputeDetected, updateEventState, h1, hp, if_true]
      exact pauseLivenessMonitoring_clears proposalId _

/-- An environment whose proposal peer serves `p1` and whose event-manager
PATCH succeeds. -/
def envDispute : Env :=
  { now := 900, eventService := fun _ => none,
    proposalService := fun i => if i = "p1" then some pLive else none,
    disputeService := fun _ => some ["d1"] }

/-- A world with a pending delayed liveness job for `p1` and a waiting one
for `p2`. -/
def wDispute : World :=
  { livenessQueue := [⟨"p1", .delayed⟩, ⟨"p2", .waiting⟩] }

/-- Witness for C4: after handling a dispute for `p1`, no delayed or
waiting liveness job for `p1` remains. -/
theorem c4_dispute_cancels_liveness_jobs_witness :
    ((handleDisputeDetected envDispute "p1" wDispute).world.livenessQueue.filter
      (fun j => j.proposalId == "p1"
        && (j.status == JobStatus.delayed || j.status == JobStatus.waiting))) = [] :=
  c4_dispute_cancels_liveness_jobs envDispute "p1" wDispute rfl

/-- `fetchProposalData` never issues a finalize transaction. -/
theorem no_finalize_in_fetchProposal (env : Env) (proposalId : String) (w : World)
    (x : String) :
    Effect.chainFinalize x ∉ (fetchProposalData env proposalId w).effs := by
  simp only [fetchProposalData]
  rcases hl : lookupCache w.cache ("proposal:" ++ proposalId) with _ | v
  · rcases hs : env.proposalService proposalId with _ | p <;> simp
  · rcases v with e | p
    · rcases hs : env.proposalService proposalId with _ | q <;> simp
    · simp

/-- `checkFinalizationConditions` never issues a finalize transaction. -/
theorem no_finalize_in_check (env : Env) (p : ProposalData) (w : World) (x : String) :
    Effect.chainFinalize x ∉ (checkFinalizationConditions env p w).effs := by
  simp only [checkFinalizationConditions, fetchProposalDisputes]
  split
  · simp
  · split
    · simp
    · rcases hd : env.disputeService p.proposalId with _ | ds <;> simp

/-- When the guard reports `true`, the three I-F1 conjuncts held: status
`"liveness"`, `livenessExpiry ≤ now`, and an empty dispute list. -/
theorem check_gate_true (env : Env) (p : ProposalData) (w : World)
    (h : (checkFinalizationConditions env p w).res = .ok true) :
    p.status = "liveness" ∧ p.livenessExpiry ≤ env.now
      ∧ env.disputeService p.proposalId = some [] := by
  simp only [checkFinalizationConditions, fetchProposalDisputes] at h
  split at h
  · simp at h
  · next hstat =>
    split at h
    · simp at h
    · next hexp =>
      rcases hd : env.disputeService p.proposalId with _ | ds
      · rw [hd] at h
        simp at h
      · rw [hd] at h
        simp only [decide_eq_true_eq, Except.ok.injEq] at h
        have hds : ds = [] := by
          rcases ds with _ | ⟨d, ds⟩
          · rfl
          · simp at h
        subst hds
        exact ⟨not_ne_iff.mp hstat, not_lt.mp hexp, rfl⟩

/-- When any I-F1 conjunct fails (wrong status, clock before expiry, or a
non-empty dispute list), the guard reports `false`. -/
theorem check_gate_false (env : Env) (p : ProposalData) (w : World)
    (hfalse : p.status ≠ "liveness" ∨ env.now < p.livenessExpiry
      ∨ ∃ d, env.disputeService p.proposalId = some d ∧ d ≠ []) :
    (checkFinalizationConditions env p w).res = .ok false := by
  rcases hfalse with h | h | ⟨d, hd, hne⟩
  · simp only [checkFinalizationConditions]
    rw [if_pos h]
  · rcases eq_or_ne p.status "liveness" with hstat | hstat
    · simp only [checkFinalizationConditions]
      rw [if_neg (not_ne_iff.mpr hstat), if_pos h]
    · simp only [checkFinalizationConditions]
      rw [if_pos hstat]
  · rcases eq_or_ne p.status "liveness" with hstat | hstat
    · rcases lt_or_le env.now p.livenessExpiry with hlt | hle
      · simp only [checkFinalizationConditions]
        rw [if_neg (not_ne_iff.mpr hstat), if_pos hlt]
      · simp only [checkFinalizationConditions, fetchProposalDisputes]
        rw [if_neg (not_ne_iff.mpr hstat), if_neg (not_lt.mpr hle), hd]
        rcases d with _ | ⟨x, d⟩
        · exact absurd rfl hne
        · rfl
    · simp only [checkFinalizationConditions]
      rw [if_pos hstat]

/-- C2: `finalizeProposal` issues the on-chain finalize transaction only
when I-F1 held on the fetched proposal — status `"liveness"`, `now ≥
livenessExpiry` and an empty dispute list; and when the gate evaluates
false, it fails with the precondition error and no finalize transaction
appears among its effects. -/
theorem c2_finalization_gate (env : Env) (proposalId : String) (w : World) :
    (Effect.chainFinalize proposalId ∈ (finalizeProposal env proposalId w).effs →
      ∃ p, (fetchProposalData env proposalId w).res = .ok p
        ∧ p.status = "liveness" ∧ p.livenessExpiry ≤ env.now
        ∧ env.disputeService p.proposalId = some [])
    ∧ (∀ p, (fetchProposalData env proposalId w).res = .ok p →
        (p.status ≠ "liveness" ∨ env.now < p.livenessExpiry
          ∨ ∃ d, env.disputeService p.proposalId = some d ∧ d ≠ []) →
        (finalizeProposal env proposalId w).res = .error .finalizationConditionsNotMet
        ∧ Effect.chainFinalize proposalId ∉ (finalizeProposal env proposalId w).effs) := by
  rcases h1 : (fetchProposalData env proposalId w).res with err | p
  · constructor
    · intro hmem
      exfalso
      simp only [finalizeProposal, h1] at hmem
      exact no_finalize_in_fetchProposal env proposalId w proposalId hmem
    · intro p hp
      simp at hp
  · rcases h2 : (checkFinalizationConditions env p
        (fetchProposalData env proposalId w).world).res with err2 | b
    · constructor
      · intro hmem
        exfalso
        simp only [finalizeProposal, h1, h2] at hmem
        rcases List.mem_append.mp hmem with hm | hm
        · exact no_finalize_in_fetchProposal env proposalId w proposalId hm
        · exact no_finalize_in_check env p _ proposalId hm
      · intro p' hp' hfalse
        injection hp' with hpe
        subst hpe
        have hfc := check_gate_false env p (fetchProposalData env proposalId w).world hfalse
        rw [hfc] at h2
        simp at h2
    · cases b
      · constructor
        · intro hmem
          exfalso
          simp only [finalizeProposal, h1, h2, Bool.not_false, if_true] at hmem
          rcases List.mem_append.mp hmem with hm | hm
          · exact no_finalize_in_fetchProposal env proposalId w proposalId hm
          · exact no_finalize_in_check env p _ proposalId hm
        · intro p' hp' hfalse
          injection hp' with hpe
          subst hpe
          constructor
          · simp only [finalizeProposal, h1, h2, Bool.not_false, if_true]
          · intro hmem
            simp only [finalizeProposal, h1, h2, Bool.not_false, if_true] at hmem
            rcases List.mem_append.mp hmem with hm | hm
            · exact no_finalize_in_fetchProposal env proposalId w proposalId hm
            · exact no_finalize_in_check env p _ proposalId hm
      · constructor
        · intro _
          exact ⟨p, rfl, check_gate_true env p _ h2⟩
        · intro p' hp' hfalse
          injection hp' with hpe
          subst hpe
          have hfc := check_gate_false env p (fetchProposalData env proposalId w).world hfalse
          rw [hfc] at h2
          simp at h2

/-- An environment whose clock is still inside `p1`'s liveness window. -/
def envEarly : Env :=
  { now := 100, eventService := fun _ => none,
    proposalService := fun i => if i = "p1" then some pLive else none,
    disputeService := fun _ => some [] }

/-- Witness for C2: attempting finalization of `p1` while `now <
livenessExpiry` fails with the precondition error. -/
theorem c2_finalization_gate_witness :
    (finalizeProposal envEarly "p1" {}).res = .error .finalizationConditionsNotMet :=
  ((c2_finalization_gate envEarly "p1" {}).2 pLive rfl (Or.inr (Or.inl (by decide)))).1

/-- A key just written is found by a lookup. -/
theorem lookup_setCache (c : List (String × CacheVal)) (k : String) (v : CacheVal) :
    lookupCache (setCache c k v) k = some v := by
  induction c with
  | nil => simp [setCache, lookupCache]
  | cons kv rest ih =>
      obtain ⟨k0, v0⟩ := kv
      by_cases h : k0 = k
      · simp [setCache, lookupCache, h]
      · simp [setCache, lookupCache, h, ih]

/-- Replaying a transition into the current state succeeds exactly when the
(buggy) lookup accepts the self-loop, and then leaves the context
unchanged. -/
theorem transition_replay (ctx : ResolutionContext) (s : ResolutionState)
    (hs : ctx.currentState = s) (hc : StateMachineService.canTransition s s = true) :
    StateMachineService.transition ctx s = (ctx, none) := by
  obtain ⟨eid, pid, cs, md, ts⟩ := ctx
  obtain rfl : cs = s := hs
  cases cs <;> first | rfl | exact absurd hc (by decide)

/-- A second `fetchEventData` right after a successful one is a pure cache
hit: same record, unchanged world, no effects. -/
theorem fetchEventData_idem (env : Env) (eventId : String) (w : World) (e : EventData)
    (h : (fetchEventData env eventId w).res = .ok e) :
    fetchEventData env eventId (fetchEventData env eventId w).world
      = ⟨.ok e, (fetchEventData env eventId w).world, []⟩ := by
  rcases hl : lookupCache w.cache ("event:" ++ eventId) with _ | v
  · rcases hs : env.eventService eventId with _ | ev
    · simp [fetchEventData, hl, hs] at h
    · have he : ev = e := by simp [fetchEventData, hl, hs] at h; exact h
      subst he
      simp only [fetchEventData, hl, hs, lookup_setCache]
  · rcases v with ev | p
    · have he : ev = e := by simp [fetchEventData, hl] at h; exact h
      subst he
      simp only [fetchEventData, hl]
    · rcases hs : env.eventService eventId with _ | ev
      · simp [fetchEventData, hl, hs] at h
      · have he : ev = e := by simp [fetchEventData, hl, hs] at h; exact h
        subst he
        simp only [fetchEventData, hl, hs, lookup_setCache]

/-- `processEvent` leaves the world exactly as the event fetch left it. -/
theorem processEvent_world (env : Env) (eventId : String) (w : World) :
    (processEvent env eventId w).world = (fetchEventData env eventId w).world := by
  simp only [processEvent]
  split
  · rfl
  · split <;> rfl

/-- An environment whose event-manager peer serves an event already
SETTLED (its upstream state is stable across calls). -/
def envSettledEvent : Env :=
  { now := 42, eventService := fun _ => some { status := .settled },
    proposalService := fun _ => none, disputeService := fun _ => none }

/-- C5 counterexample: the claim says `processEvent` succeeds for every
event whose upstream state is unchanged.  For an event whose status is
SETTLED (likewise MONITORING or EVIDENCE_GATHERING), the replay transition
`settled → settled` is rejected by the transition lookup, so
`processEvent` fails. -/
theorem c5_processEvent_counterexample :
    (processEvent envSettledEvent "e1" {}).res
      = .error (.stateMachineError (.invalidTransition .settled .settled)) := rfl

/-- C5 (amended): for every event whose status is one of the seven states
keyed in the transition table (equivalently: the self-loop is accepted by
`canTransition`), `processEvent` succeeds and returns the context replayed
into the fetched status; a second back-to-back call with unchanged
upstream state and the same clock returns the identical context, leaves
the world unchanged, and issues no side effects. -/
theorem c5_processEvent_replay (env : Env) (eventId : String) (w : World) (e : EventData)
    (h1 : (fetchEventData env eventId w).res = .ok e)
    (h2 : StateMachineService.canTransition e.status e.status = true) :
    (processEvent env eventId w).res
      = .ok { eventId := eventId, currentState := e.status, metadata := e.metadata,
              timestamp := env.now }
    ∧ processEvent env eventId (processEvent env eventId w).world
      = ⟨.ok { eventId := eventId, currentState := e.status, metadata := e.metadata,
               timestamp := env.now },
         (processEvent env eventId w).world, []⟩ := by
  have ht := transition_replay
      { eventId := eventId, currentState := e.status, metadata := e.metadata,
        timestamp := env.now } e.status rfl h2
  constructor
  · simp only [processEvent, h1, ht]
  · have hw := processEvent_world env eventId w
    rw [hw]
    have hfi := fetchEventData_idem env eventId w e h1
    simp only [processEvent, hfi, ht]

/-- An environment whose event-manager peer serves an event in CREATED. -/
def envCreatedEvent : Env :=
  { now := 7, eventService := fun _ => some { status := .created },
    proposalService := fun _ => none, disputeService := fun _ => none }

/-- Witness for C5's amended theorem: replaying a CREATED event succeeds
and the second back-to-back call is a no-op returning the same context. -/
theorem c5_processEvent_replay_witness :
    (processEvent envCreatedEvent "e1" {}).res
      = .ok { eventId := "e1", currentState := .created, metadata := [], timestamp := 7 }
    ∧ processEvent envCreatedEvent "e1" (processEvent envCreatedEvent "e1" {}).world
      = ⟨.ok { eventId := "e1", currentState := .created, metadata := [], timestamp := 7 },
         (processEvent envCreatedEvent "e1" {}).world, []⟩ :=
  c5_processEvent_replay envCreatedEvent "e1" {} { status := .created } rfl (by decide)

/-! ## Claims about the indexer -/

/-- The single `EventCreated` log sitting in block 101. -/
def logC8 : ChainLog := { eventId := "ev1", blockNumber := 101, transactionHash := "0xabc" }

/-- A chain whose head is block 101, whose only `EventCreated` log lies in
block 101, and whose event-manager peer rejects every POST. -/
def envPostFail : IndexerEnv :=
  { head := 101,
    logs := fun a b => if a ≤ 101 ∧ 101 ≤ b then [logC8] else [],
    postOk := fun _ => false }

/-- C8 counterexample: the claim says a failure to post any log causes the
same range to be re-processed on the next tick.  On the code,
`handleEventCreated` catches and logs the POST failure, so `processBlocks`
still returns normally and `lastIndexedBlock` advances to the head: with
`lastIndexedBlock = 100` and head 101, the tick whose only POST fails
still ends with `lastIndexedBlock = 101`, and the next tick processes
nothing. -/
theorem c8_advance_despite_failed_post :
    IndexerService.indexNewBlocks envPostFail 100 = (101, [.post logC8 false])
    ∧ IndexerService.indexNewBlocks envPostFail 101 = (101, []) := by
  constructor <;> rfl

/-- C8 (amended): with a healthy provider and a loaded registry contract:
on first run the working pointer is seeded to `head − 100`; a tick with
`head > lastIndexedBlock` whose range query succeeds processes exactly the
logs of `[lastIndexedBlock + 1, head]` and advances `lastIndexedBlock` to
the head — including when some POSTs fail, because `handleEventCreated`
swallows POST errors; only a thrown range query leaves the (possibly just
seeded) pointer unadvanced for re-processing; and a tick with `head ≤
lastIndexedBlock` is a no-op. -/
theorem c8_indexer_tick (env : IndexerEnv) (lastIndexedBlock : Int)
    (hprov : env.providerOk = true) (hreg : env.hasOracleRegistry = true) :
    (env.queryOk = true →
      env.head > (if lastIndexedBlock = 0 then env.head - 100 else lastIndexedBlock) →
      IndexerService.indexNewBlocks env lastIndexedBlock
        = (env.head,
           (env.logs ((if lastIndexedBlock = 0 then env.head - 100 else lastIndexedBlock) + 1)
              env.head).foldl (fun acc l => acc ++ IndexerService.handleEventCreated env l) []))
    ∧ (env.queryOk = false →
      env.head > (if lastIndexedBlock = 0 then env.head - 100 else lastIndexedBlock) →
      IndexerService.indexNewBlocks env lastIndexedBlock
        = ((if lastIndexedBlock = 0 then env.head - 100 else lastIndexedBlock), []))
    ∧ (¬env.head > (if lastIndexedBlock = 0 then env.head - 100 else lastIndexedBlock) →
      IndexerService.indexNewBlocks env lastIndexedBlock
        = ((if lastIndexedBlock = 0 then env.head - 100 else lastIndexedBlock), [])) := by
  refine ⟨?_, ?_, ?_⟩
  · intro hq hgt
    simp [IndexerService.indexNewBlocks, IndexerService.processBlocks, hprov, hreg, hq, hgt]
  · intro hq hgt
    simp [IndexerService.indexNewBlocks, IndexerService.processBlocks, hprov, hreg, hq, hgt]
  · intro hgt
    simp [IndexerService.indexNewBlocks, hprov, hgt]

/-- A chain at head 10 with no logs, seen by an indexer whose pointer
stands at block 3. -/
def envQuiet : IndexerEnv := { head := 10, logs := fun _ _ => [] }

/-- Witness for C8's amended theorem: a healthy tick from pointer 3 at
head 10 advances the pointer to 10. -/
theorem c8_indexer_tick_witness :
    IndexerService.indexNewBlocks envQuiet 3 = (10, []) :=
  (c8_indexer_tick envQuiet 3 rfl rfl).1 rfl (by decide)

end PredictLink
